import Mathlib

/-!
A shallow embedding of the validation core of react-mobx-validatorjs:
the class `StoreModelValidator<T>` (src/validator/StoreModelValidator.ts)
together with the slice of its collaborators that its behaviour depends on.

The external rule-evaluation engine (validatorjs) is abstracted as an
oracle `chk : Option μ → ρ → Except ConfigError Validation` standing for
the pair `createValidation(); validation.check()`: building a validator
for the current model and rule spec and running it, which either yields a
fresh evaluation result or throws a ConfigurationError (malformed rule
grammar, unknown rule name).  Locale selection and message-key
translation only feed that oracle and are folded into it; the model type
`μ` and the rule-spec type `ρ` are parameters.  TypeScript reference
identity on models is modelled by (decidable) equality on `μ`.
-/

/-- A ConfigurationError thrown by the external rule-evaluation engine
(validatorjs), e.g. for a malformed rule expression or an unknown rule
name. -/
structure ConfigError where
  msg : String
deriving DecidableEq

/-- The result of one `check()` run of the external rule-evaluation
engine: the `errors.errors` association (field name to its ordered list of
error messages; a field occurs as a key exactly when it has at least one
message) and the total `errorCount`. -/
structure Validation where
  errors : List (String × List String)
  errorCount : Nat
deriving DecidableEq

/-- `validation.errors.has(field)`: key membership in the error map
(validatorjs `Errors.has` is `hasOwnProperty`). -/
def Validation.has (v : Validation) (f : String) : Bool :=
  v.errors.any (fun p => p.1 == f)

/-- `Object.keys(validation.errors.errors)`: the fields that currently
carry errors, in the error map's order. -/
def Validation.errorKeys (v : Validation) : List String :=
  v.errors.map Prod.fst

/-- The `type` of a mobx `IObjectDidChange` mutation notification. -/
inductive ChangeType where
  | update
  | add
  | remove
  | delete
deriving DecidableEq

/-- A mobx mutation notification as consumed by
`StoreModelValidator.modelChanged`: its `type` and its `name` (absent or
the empty string are both falsy in the JavaScript `if (change.name)`
test). -/
structure ObjectChange where
  type : ChangeType
  name : Option String
deriving DecidableEq

/-- The state of a `StoreModelValidator<T>` instance with model type `μ`
and rule-spec type `ρ`: the last `validation` results, the held `model`
(`none` = null), whether a mobx observer `disposer` is currently
installed, the `validatedFields` map (its keys in insertion order; every
stored value is `true`, so only the key list is kept), the `dirty` flag,
and the config's `rules` and `manual` flag (the other config entries only
feed the oracle). -/
structure EngineState (μ ρ : Type) where
  validation : Validation
  model : Option μ
  hasDisposer : Bool
  validatedFields : List String
  dirty : Bool
  rules : ρ
  manual : Bool
deriving DecidableEq

namespace StoreModelValidator

/-- The external-engine oracle standing for
`const v = this.createValidation(); v.check()` on a given model and rule
spec. -/
abbrev Check (μ ρ : Type) := Option μ → ρ → Except ConfigError Validation

/-- `reset()`: create and run a fresh validation for the unchanged model
and rules, install it, clear `validatedFields`, and clear `dirty`. -/
def reset {μ ρ : Type} (chk : Check μ ρ) (st : EngineState μ ρ) :
    Except ConfigError (EngineState μ ρ) :=
  match chk st.model st.rules with
  | .error e => .error e
  | .ok v =>
      .ok { st with validation := v, validatedFields := [], dirty := false }

/-- `setModel(model)`: when the argument differs from the held model
(`this.model !== model`), install it, dispose any existing observer and
(unless `manual`) observe the new model, then `reset()`; when it is the
very model already held, the body is skipped entirely. -/
def setModel {μ ρ : Type} [DecidableEq μ] (chk : Check μ ρ) (m : μ)
    (st : EngineState μ ρ) : Except ConfigError (EngineState μ ρ) :=
  if st.model = some m then
    .ok st
  else
    reset chk { st with model := some m, hasDisposer := !st.manual }

/-- `setRules(rules)`: replace `config.rules` and `reset()`. -/
def setRules {μ ρ : Type} (chk : Check μ ρ) (r : ρ) (st : EngineState μ ρ) :
    Except ConfigError (EngineState μ ρ) :=
  reset chk { st with rules := r }

/-- `markDirty(field)`: unless the field is already a key of
`validatedFields`, add it (JavaScript `Map.set` appends a new key in
insertion order) and raise `dirty`. -/
def markDirty {μ ρ : Type} (f : String) (st : EngineState μ ρ) :
    EngineState μ ρ :=
  if st.validatedFields.contains f then st
  else { st with validatedFields := st.validatedFields ++ [f], dirty := true }

/-- `fieldValidated(field, validation)`: read whether the field has
errors in the fresh results, mark the field dirty, store the fresh
validation, and return `!hasErrors`. -/
def fieldValidated {μ ρ : Type} (f : String) (v : Validation)
    (st : EngineState μ ρ) : Bool × EngineState μ ρ :=
  let hasErrors := v.has f
  let st1 := markDirty f st
  (!hasErrors, { st1 with validation := v })

/-- `validateField(field)`: run a full check of the whole model against
the whole rule spec, then `fieldValidated`. -/
def validateField {μ ρ : Type} (chk : Check μ ρ) (f : String)
    (st : EngineState μ ρ) : Except ConfigError (Bool × EngineState μ ρ) :=
  match chk st.model st.rules with
  | .error e => .error e
  | .ok v => .ok (fieldValidated f v st)

/-- `formValidated(validation)`: mark every key of the fresh error map
dirty, store the fresh validation, and return `this.errorCount === 0`
(read from the validation just stored). -/
def formValidated {μ ρ : Type} (v : Validation) (st : EngineState μ ρ) :
    Bool × EngineState μ ρ :=
  let st1 := v.errorKeys.foldl (fun s f => markDirty f s) st
  let st2 := { st1 with validation := v }
  (st2.validation.errorCount == 0, st2)

/-- `validateForm()`: run a full check, then `formValidated`. -/
def validateForm {μ ρ : Type} (chk : Check μ ρ) (st : EngineState μ ρ) :
    Except ConfigError (Bool × EngineState μ ρ) :=
  match chk st.model st.rules with
  | .error e => .error e
  | .ok v => .ok (formValidated v st)

/-- `modelChanged(change)`: on an `update` or `add` notification run
`validateField` on the named field, falling back to `validateForm` when
the name is absent or empty (JavaScript truthiness of `change.name`); a
notification of any other kind is ignored.  The boolean results are
discarded. -/
def modelChanged {μ ρ : Type} (chk : Check μ ρ) (c : ObjectChange)
    (st : EngineState μ ρ) : Except ConfigError (EngineState μ ρ) :=
  match c.type with
  | .update | .add =>
      match c.name with
      | some f =>
          if f = "" then (validateForm chk st).map Prod.snd
          else (validateField chk f st).map Prod.snd
      | none => (validateForm chk st).map Prod.snd
  | _ => .ok st

/-- `get errors`: the error map of the last validation. -/
def errors {μ ρ : Type} (st : EngineState μ ρ) :
    List (String × List String) :=
  st.validation.errors

/-- `get errorCount`: the error count of the last validation. -/
def errorCount {μ ρ : Type} (st : EngineState μ ρ) : Nat :=
  st.validation.errorCount

/-- `get isValid`: `this.errorCount === 0`. -/
def isValid {μ ρ : Type} (st : EngineState μ ρ) : Bool :=
  errorCount st == 0

/-- `showErrorsOnField(field)`: `this.validatedFields.has(field)`. -/
def showErrorsOnField {μ ρ : Type} (st : EngineState μ ρ) (f : String) :
    Bool :=
  st.validatedFields.contains f

/-- `get fieldsThatMayShowErrors`: `return this.validatedFields;` — the
getter hands out the internal map itself, not a copy. -/
def fieldsThatMayShowErrors {μ ρ : Type} (st : EngineState μ ρ) :
    List String :=
  st.validatedFields

/-- `get pristine`: `!this.dirty`. -/
def pristine {μ ρ : Type} (st : EngineState μ ρ) : Bool :=
  !st.dirty

/-- `getModel()`. -/
def getModel {μ ρ : Type} (st : EngineState μ ρ) : Option μ :=
  st.model

/-- Effect on the engine of a caller running `set(f, true)` on the `Map`
returned by the `fieldsThatMayShowErrors` getter.  The getter returns the
engine's own `validatedFields` map (see `fieldsThatMayShowErrors`), so by
the semantics of JavaScript `Map.prototype.set` the write inserts the key
into that same internal map: a fresh key is appended, an existing key
keeps its place. -/
def externalViewSet {μ ρ : Type} (f : String) (st : EngineState μ ρ) :
    EngineState μ ρ :=
  { st with validatedFields :=
      if st.validatedFields.contains f then st.validatedFields
      else st.validatedFields ++ [f] }

end StoreModelValidator

/-! Concrete fixtures used by witnesses and counterexamples. -/

/-- An oracle that always succeeds with an empty error map. -/
def chkOk : StoreModelValidator.Check Nat Unit :=
  fun _ _ => .ok ⟨[], 0⟩

/-- An oracle that always throws a ConfigurationError, as validatorjs
does for an unknown rule name. -/
def chkBad : StoreModelValidator.Check Nat Unit :=
  fun _ _ => .error ⟨"Validator rule nope is not defined"⟩

/-- The evaluation result reporting one error on field `a`. -/
def vA : Validation :=
  ⟨[("a", ["The a field is required."])], 1⟩

/-- An oracle that always reports `vA`. -/
def chkErrA : StoreModelValidator.Check Nat Unit :=
  fun _ _ => .ok vA

/-- A concrete pristine engine state holding model `0`. -/
def st0 : EngineState Nat Unit :=
  { validation := ⟨[], 0⟩, model := some 0, hasDisposer := true,
    validatedFields := [], dirty := false, rules := (), manual := false }

/-- A concrete engine state holding model `0` with field `a` already in
the ledger. -/
def stA : EngineState Nat Unit :=
  { validation := ⟨[], 0⟩, model := some 0, hasDisposer := true,
    validatedFields := ["a"], dirty := true, rules := (), manual := false }

/-- `st0` after a validation pass that reported `vA`: field `a` in the
ledger, dirty, `vA` stored. -/
def st0A : EngineState Nat Unit :=
  { validation := vA, model := some 0, hasDisposer := true,
    validatedFields := ["a"], dirty := true, rules := (), manual := false }

/-! Helper lemmas about the ledger. -/

/-- `markDirty` keeps every field already in the ledger. -/
theorem mem_markDirty_of_mem {μ ρ : Type} (f g : String)
    (st : EngineState μ ρ) (h : g ∈ st.validatedFields) :
    g ∈ (StoreModelValidator.markDirty f st).validatedFields := by
  unfold StoreModelValidator.markDirty
  split
  · exact h
  · show g ∈ st.validatedFields ++ [f]
    exact List.mem_append.mpr (Or.inl h)

/-- `markDirty f` puts `f` in the ledger. -/
theorem mem_markDirty_self {μ ρ : Type} (f : String) (st : EngineState μ ρ) :
    f ∈ (StoreModelValidator.markDirty f st).validatedFields := by
  unfold StoreModelValidator.markDirty
  split
  · rename_i h
    exact List.elem_iff.mp h
  · show f ∈ st.validatedFields ++ [f]
    simp

/-- Folding `markDirty` over a list of fields leaves a ledger containing
that list and everything that was there before. -/
theorem mem_foldl_markDirty {μ ρ : Type} (l : List String)
    (st : EngineState μ ρ) (g : String)
    (h : g ∈ l ∨ g ∈ st.validatedFields) :
    g ∈ (l.foldl (fun s f => StoreModelValidator.markDirty f s)
      st).validatedFields := by
  induction l generalizing st with
  | nil =>
      rcases h with h | h
      · cases h
      · exact h
  | cons a t ih =>
      simp only [List.foldl_cons]
      apply ih
      rcases h with h | h
      · rcases List.mem_cons.mp h with h | h
        · subst h
          exact Or.inr (mem_markDirty_self g st)
        · exact Or.inl h
      · exact Or.inr (mem_markDirty_of_mem a g st h)

/-! Claim theorems. -/

/-- Claim C1, counterexample: calling `setModel` with the very model the
engine already holds leaves the ledger untouched (the whole call is
skipped), so `setModel` does not always reset the ledger or transition to
Pristine. -/
theorem C1_counterexample :
    StoreModelValidator.setModel chkOk 0 stA = .ok stA ∧
    stA.validatedFields ≠ [] ∧ StoreModelValidator.pristine stA = false := by
  refine ⟨rfl, ?_, rfl⟩
  decide

/-- Claim C1 as amended: `setModel(newModel)` resets the ledger to empty
and transitions to Pristine whenever `newModel` differs from the held
model (regardless of the error sets involved); when `newModel` is the
very model the engine already holds, the call is a no-op instead. -/
theorem C1_amended_setModel {μ ρ : Type} [DecidableEq μ]
    (chk : StoreModelValidator.Check μ ρ) (m : μ) (st : EngineState μ ρ)
    (v : Validation) (hne : st.model ≠ some m)
    (hchk : chk (some m) st.rules = .ok v) :
    StoreModelValidator.setModel chk m st =
      .ok { st with
            model := some m, hasDisposer := !st.manual,
            validation := v, validatedFields := [], dirty := false } := by
  unfold StoreModelValidator.setModel StoreModelValidator.reset
  rw [if_neg hne]
  simp [hchk]

/-- Claim C1, witness for the amended theorem at a concrete input. -/
theorem C1_amended_witness :
    StoreModelValidator.setModel chkOk 1 stA =
      .ok { stA with
            model := some 1, hasDisposer := true,
            validation := ⟨[], 0⟩, validatedFields := [], dirty := false } :=
  C1_amended_setModel chkOk 1 stA ⟨[], 0⟩ (by decide) rfl

/-- Claim C2: after a successful `validateForm()`, every field that is a
key of the freshly computed error map is a member of the ledger
(`validatedFields`, exposed as `fieldsThatMayShowErrors`), even if it was
never individually validated before. -/
theorem C2_validateForm_marks_error_keys {μ ρ : Type}
    (chk : StoreModelValidator.Check μ ρ) (st : EngineState μ ρ)
    (v : Validation) (b : Bool) (st2 : EngineState μ ρ)
    (hchk : chk st.model st.rules = .ok v)
    (hrun : StoreModelValidator.validateForm chk st = .ok (b, st2)) :
    ∀ f ∈ v.errorKeys, f ∈ st2.validatedFields := by
  intro f hf
  unfold StoreModelValidator.validateForm at hrun
  rw [hchk] at hrun
  injection hrun with h
  have hst : (StoreModelValidator.formValidated v st).2 = st2 :=
    congrArg Prod.snd h
  rw [← hst]
  show f ∈ (v.errorKeys.foldl
    (fun s g => StoreModelValidator.markDirty g s) st).validatedFields
  exact mem_foldl_markDirty v.errorKeys st f (Or.inl hf)

/-- Claim C2, witness at a concrete input: the fresh error map has key
`a` and after `validateForm` the ledger contains `a`. -/
theorem C2_witness : "a" ∈ st0A.validatedFields :=
  C2_validateForm_marks_error_keys chkErrA st0 vA false st0A rfl rfl
    "a" (by decide)

/-- Claim C3: `showErrorsOnField(f)` is true exactly when `f` is in the
ledger, and it is oblivious to the stored evaluation result, so its value
says nothing about whether `f` currently has an error. -/
theorem C3_showErrorsOnField_ledger {μ ρ : Type} (st : EngineState μ ρ)
    (f : String) :
    (StoreModelValidator.showErrorsOnField st f = true ↔
      f ∈ st.validatedFields) ∧
    (∀ v : Validation,
      StoreModelValidator.showErrorsOnField { st with validation := v } f =
        StoreModelValidator.showErrorsOnField st f) := by
  constructor
  · exact List.elem_iff
  · intro v
    rfl

/-- Claim C4: `validateField(f)` checks the whole model against the whole
rule spec, installs that fresh evaluation as the stored one, puts `f`
into the ledger, and returns true exactly when `f` has no errors in the
fresh evaluation. -/
theorem C4_validateField_full_check {μ ρ : Type}
    (chk : StoreModelValidator.Check μ ρ) (f : String)
    (st : EngineState μ ρ) (v : Validation) (r : Bool)
    (st2 : EngineState μ ρ)
    (hchk : chk st.model st.rules = .ok v)
    (hrun : StoreModelValidator.validateField chk f st = .ok (r, st2)) :
    st2.validation = v ∧ f ∈ st2.validatedFields ∧
      (r = true ↔ v.has f = false) := by
  unfold StoreModelValidator.validateField at hrun
  rw [hchk] at hrun
  injection hrun with h
  have hst : (StoreModelValidator.fieldValidated f v st).2 = st2 :=
    congrArg Prod.snd h
  have hr : (StoreModelValidator.fieldValidated f v st).1 = r :=
    congrArg Prod.fst h
  rw [← hst, ← hr]
  refine ⟨rfl, mem_markDirty_self f st, ?_⟩
  show (!v.has f) = true ↔ v.has f = false
  simp

/-- Claim C4, witness at a concrete input: the fresh evaluation has an
error on `a`, so `validateField("a")` returns false, stores it, and puts
`a` in the ledger. -/
theorem C4_witness :
    st0A.validation = vA ∧ "a" ∈ st0A.validatedFields ∧
      (false = true ↔ vA.has "a" = false) :=
  C4_validateField_full_check chkErrA "a" st0 vA false st0A rfl rfl

/-- Claim C5: `validateForm()` returns exactly `errorCount == 0` read
from the freshly stored evaluation; in particular on a model satisfying
every rule (fresh error count zero) it returns true with `isValid` true
and `errorCount` zero afterwards; and `isValid` equals
`errorCount == 0` on every state, continuously. -/
theorem C5_validateForm_isValid {μ ρ : Type}
    (chk : StoreModelValidator.Check μ ρ) (st : EngineState μ ρ)
    (v : Validation) (b : Bool) (st2 : EngineState μ ρ)
    (hchk : chk st.model st.rules = .ok v)
    (hrun : StoreModelValidator.validateForm chk st = .ok (b, st2)) :
    b = (StoreModelValidator.errorCount st2 == 0) ∧
    (v.errorCount = 0 →
      b = true ∧ StoreModelValidator.isValid st2 = true ∧
        StoreModelValidator.errorCount st2 = 0) ∧
    (∀ s : EngineState μ ρ,
      StoreModelValidator.isValid s =
        (StoreModelValidator.errorCount s == 0)) := by
  unfold StoreModelValidator.validateForm at hrun
  rw [hchk] at hrun
  injection hrun with h
  have hst : (StoreModelValidator.formValidated v st).2 = st2 :=
    congrArg Prod.snd h
  have hb : (StoreModelValidator.formValidated v st).1 = b :=
    congrArg Prod.fst h
  subst hst hb
  refine ⟨rfl, fun h0 => ?_, fun s => rfl⟩
  refine ⟨?_, ?_, ?_⟩
  · show (v.errorCount == 0) = true
    rw [h0]
    rfl
  · show (v.errorCount == 0) = true
    rw [h0]
    rfl
  · show v.errorCount = 0
    exact h0

/-- Claim C5, witness at a concrete input: a passing model gives
`validateForm` = true, `isValid` = true, `errorCount` = 0. -/
theorem C5_witness :
    true = (StoreModelValidator.errorCount st0 == 0) ∧
    (true = true ∧ StoreModelValidator.isValid st0 = true ∧
      StoreModelValidator.errorCount st0 = 0) ∧
    StoreModelValidator.isValid st0 =
      (StoreModelValidator.errorCount st0 == 0) := by
  have h := C5_validateForm_isValid chkOk st0 ⟨[], 0⟩ true st0 rfl rfl
  exact ⟨h.1, h.2.1 rfl, h.2.2 st0⟩

/-- Claim C6: `reset()` is idempotent — running it a second time right
after a first run (same model, same rules) changes nothing, including
when the check itself fails. -/
theorem C6_reset_idempotent {μ ρ : Type}
    (chk : StoreModelValidator.Check μ ρ) (st : EngineState μ ρ) :
    (StoreModelValidator.reset chk st).bind (StoreModelValidator.reset chk) =
      StoreModelValidator.reset chk st := by
  unfold StoreModelValidator.reset
  cases h : chk st.model st.rules with
  | error e => rfl
  | ok v => simp [h, Except.bind]

/-- Claim C7, counterexample: a caller-side `set("x", true)` on the map
returned by the `fieldsThatMayShowErrors` getter (which is the internal
`validatedFields` map itself, not a copy) does change the engine state:
field `x` becomes eligible to show errors although no validate call ever
touched it. -/
theorem C7_counterexample :
    StoreModelValidator.showErrorsOnField
        (StoreModelValidator.externalViewSet "x" st0) "x" = true ∧
    StoreModelValidator.showErrorsOnField st0 "x" = false ∧
    (StoreModelValidator.externalViewSet "x" st0).validatedFields ≠
      st0.validatedFields := by
  refine ⟨rfl, rfl, ?_⟩
  decide

/-- Claim C7 as amended: the `fieldsThatMayShowErrors` getter returns the
internal ledger itself — a live view, not a defensive or frozen copy — so
a caller writing a key through the returned map does make that field
eligible to show errors. -/
theorem C7_amended_live_view {μ ρ : Type} (st : EngineState μ ρ)
    (f : String) :
    StoreModelValidator.fieldsThatMayShowErrors st = st.validatedFields ∧
    StoreModelValidator.showErrorsOnField
      (StoreModelValidator.externalViewSet f st) f = true := by
  refine ⟨rfl, ?_⟩
  show (if st.validatedFields.contains f then st.validatedFields
        else st.validatedFields ++ [f]).contains f = true
  split
  · rename_i h
    exact h
  · exact List.elem_iff.mpr (by simp)

/-- Claim C8: a ConfigurationError raised by the rule-evaluation engine
propagates out of `validateField`, `validateForm`, `setModel` (when it
checks at all, i.e. on a genuinely new model) and `setRules`; no handler
in the core absorbs it. -/
theorem C8_config_error_propagates {μ ρ : Type} [DecidableEq μ]
    (chk : StoreModelValidator.Check μ ρ) (st : EngineState μ ρ) :
    (∀ (e : ConfigError) (f : String), chk st.model st.rules = .error e →
      StoreModelValidator.validateField chk f st = .error e) ∧
    (∀ e : ConfigError, chk st.model st.rules = .error e →
      StoreModelValidator.validateForm chk st = .error e) ∧
    (∀ (e : ConfigError) (m : μ), st.model ≠ some m →
      chk (some m) st.rules = .error e →
      StoreModelValidator.setModel chk m st = .error e) ∧
    (∀ (e : ConfigError) (r : ρ), chk st.model r = .error e →
      StoreModelValidator.setRules chk r st = .error e) := by
  refine ⟨?_, ?_, ?_, ?_⟩
  · intro e f h
    unfold StoreModelValidator.validateField
    rw [h]
  · intro e h
    unfold StoreModelValidator.validateForm
    rw [h]
  · intro e m hne h
    unfold StoreModelValidator.setModel StoreModelValidator.reset
    rw [if_neg hne]
    simp [h]
  · intro e r h
    unfold StoreModelValidator.setRules StoreModelValidator.reset
    simp [h]

/-- Claim C8, witness at a concrete input: an always-throwing engine
makes `validateForm` return the very error. -/
theorem C8_witness :
    StoreModelValidator.validateForm chkBad st0 =
      .error ⟨"Validator rule nope is not defined"⟩ :=
  (C8_config_error_propagates chkBad st0).2.1
    ⟨"Validator rule nope is not defined"⟩ rfl

/-- Claim C9: `setModel(m)` with the very model the engine already holds
is a complete no-op — the whole state (validation, ledger, dirty flag,
disposer) is returned unchanged, for every oracle, so no re-evaluation is
performed. -/
theorem C9_setModel_same_noop {μ ρ : Type} [DecidableEq μ]
    (chk : StoreModelValidator.Check μ ρ) (m : μ) (st : EngineState μ ρ)
    (h : st.model = some m) :
    StoreModelValidator.setModel chk m st = .ok st := by
  unfold StoreModelValidator.setModel
  rw [if_pos h]

/-- Claim C9, witness at a concrete input: even with an always-throwing
oracle (so any evaluation attempt would surface), `setModel` of the held
model returns the state unchanged. -/
theorem C9_witness :
    StoreModelValidator.setModel chkBad 0 stA = .ok stA :=
  C9_setModel_same_noop chkBad 0 stA rfl

/-- Claim C10: a mutation notification whose kind is neither `update` nor
`add` (e.g. a deletion) triggers no validation: `modelChanged` returns
the state unchanged, for every oracle. -/
theorem C10_non_update_ignored {μ ρ : Type}
    (chk : StoreModelValidator.Check μ ρ) (c : ObjectChange)
    (st : EngineState μ ρ) (h1 : c.type ≠ ChangeType.update)
    (h2 : c.type ≠ ChangeType.add) :
    StoreModelValidator.modelChanged chk c st = .ok st := by
  unfold StoreModelValidator.modelChanged
  cases hc : c.type with
  | update => exact absurd hc h1
  | add => exact absurd hc h2
  | remove => rfl
  | delete => rfl

/-- Claim C10, witness at a concrete input: a `remove` notification with
an always-throwing oracle leaves the state exactly as it was. -/
theorem C10_witness :
    StoreModelValidator.modelChanged chkBad
      ⟨ChangeType.remove, some "a"⟩ stA = .ok stA :=
  C10_non_update_ignored chkBad ⟨ChangeType.remove, some "a"⟩ stA
    (by decide) (by decide)
